import Mathlib

/-!
# tasker: a command-line task manager over a document collection

A shallow embedding of `main.go`.  The MongoDB collection is a list of task
documents in the store's natural order.  The driver calls used by the program
(`Find`, `InsertOne`, `FindOneAndUpdate`, `DeleteOne`) are functions on that
list; the store is reliable, so a driver call never reports a transport or
server error.  `time.Now()` and `primitive.NewObjectID()` read from streams
carried by the world state, one element per call.  A Go `error` is an
`Option Err` (`none` is `nil`), and a Go result `([]*Task, error)` is a pair.
-/

namespace Tasker

/-- An object id (`primitive.ObjectID`), kept abstract. -/
abbrev ObjectID := Nat

/-- An instant (`time.Time`), kept abstract and ordered. -/
abbrev Time := Nat

/-- The record `Task` of `main.go`. -/
structure Task where
  ID : ObjectID
  CreatedAt : Time
  UpdatedAt : Time
  Text : String
  Completed : Bool
  deriving DecidableEq, Repr

/-- Go errors met in the program: the sentinel `mongo.ErrNoDocuments`, and the
values built by `errors.New`, which are never identical to the sentinel. -/
inductive Err where
  | ErrNoDocuments
  | New (msg : String)
  deriving DecidableEq, Repr

/-- The values stored in the fields of filter and update documents. -/
inductive Value where
  | null
  | bool (b : Bool)
  | str (s : String)
  | time (t : Time)
  | oid (i : ObjectID)
  deriving DecidableEq, Repr

/-- One element of a `bson.D` document (`primitive.E`). -/
structure E where
  Key : String
  Value : Value
  deriving DecidableEq, Repr

/-- An ordered document (`bson.D`). -/
abbrev D := List E

/-- The empty element `{}` of `bson.D{{}}`: key `""`, value `nil`. -/
def E.zero : E := ⟨"", Value.null⟩

/-- An update document: update operators, each with its document of fields. -/
abbrev Update := List (String × D)

/-- The value a stored task has under a BSON key, following the struct tags. -/
def Task.field (t : Task) (key : String) : Option Value :=
  if key = "_id" then some (Value.oid t.ID)
  else if key = "created_at" then some (Value.time t.CreatedAt)
  else if key = "updated_at" then some (Value.time t.UpdatedAt)
  else if key = "text" then some (Value.str t.Text)
  else if key = "completed" then some (Value.bool t.Completed)
  else none

/-- Equality match of a filter document: every element's key holds the
element's value; a key absent from the document matches `null`. -/
def matchesFilter (filter : D) (t : Task) : Bool :=
  filter.all fun e => decide ((t.field e.Key).getD Value.null = e.Value)

/-- Write one field of a task, as `$set` does and the struct decodes it.  The
stored `_id` is immutable and a key that is not a struct tag is not decoded. -/
def Task.setField (t : Task) (e : E) : Task :=
  match e.Value with
  | Value.bool b => if e.Key = "completed" then { t with Completed := b } else t
  | Value.str s => if e.Key = "text" then { t with Text := s } else t
  | Value.time x =>
    if e.Key = "created_at" then { t with CreatedAt := x }
    else if e.Key = "updated_at" then { t with UpdatedAt := x }
    else t
  | _ => t

/-- Apply an update document to a task: each `$set` operator writes its fields
in order. -/
def applyUpdate (update : Update) (t : Task) : Task :=
  update.foldl (fun acc op => if op.1 = "$set" then op.2.foldl Task.setField acc else acc) t

/-- The driver call `collection.Find`: a cursor over the matching documents
in natural order. -/
def Find (filter : D) (c : List Task) : List Task :=
  c.filter (matchesFilter filter)

/-- The driver call `collection.InsertOne`: the document joins the collection
at the end of the natural order. -/
def InsertOne (task : Task) (c : List Task) : List Task :=
  c ++ [task]

/-- The driver call `collection.FindOneAndUpdate`: the first document that
matches the filter is updated; the result carries the document as it was
before the update, or nothing when no document matches. -/
def FindOneAndUpdate (filter : D) (update : Update) : List Task → Option Task × List Task
  | [] => (none, [])
  | x :: xs =>
    if matchesFilter filter x then (some x, applyUpdate update x :: xs)
    else
      let r := FindOneAndUpdate filter update xs
      (r.1, x :: r.2)

/-- The call `SingleResult.Decode`: `mongo.ErrNoDocuments` when the operation
found no document, `nil` otherwise. -/
def Decode (found : Option Task) : Option Err :=
  match found with
  | none => some Err.ErrNoDocuments
  | some _ => none

/-- The driver call `collection.DeleteOne`: the first document that matches
the filter is removed; the count `DeletedCount` comes with the collection. -/
def DeleteOne (filter : D) : List Task → Nat × List Task
  | [] => (0, [])
  | x :: xs =>
    if matchesFilter filter x then (1, xs)
    else
      let r := DeleteOne filter xs
      (r.1, x :: r.2)

/-- The state the program runs against: the collection, the readings the clock
will return to successive `time.Now()` calls, and the ids successive
`primitive.NewObjectID()` calls will return. -/
structure World where
  collection : List Task
  clock : Nat → Time
  oids : Nat → ObjectID

/-- The call `time.Now()`: the next reading of the clock. -/
def Now (w : World) : Time × World :=
  (w.clock 0, { w with clock := fun n => w.clock (n + 1) })

/-- The call `primitive.NewObjectID()`: the next id. -/
def NewObjectID (w : World) : ObjectID × World :=
  (w.oids 0, { w with oids := fun n => w.oids (n + 1) })

/-- The call `ctx.Args().First()`: the first argument, or `""` without one. -/
def First (args : List String) : String :=
  args.headD ""

/-- The cursor loop of `filterTasks`: each document is decoded and appended. -/
def drain : List Task → List Task → List Task
  | [], tasks => tasks
  | t :: cur, tasks => drain cur (tasks ++ [t])

/-- The function `filterTasks` of `main.go`. -/
def filterTasks (filter : D) (c : List Task) : List Task × Option Err :=
  let cur := Find filter c
  let tasks := drain cur []
  if tasks.length = 0 then (tasks, some Err.ErrNoDocuments)
  else (tasks, none)

/-- The function `createNewTask` of `main.go`. -/
def createNewTask (task : Task) (w : World) : Option Err × World :=
  (none, { w with collection := InsertOne task w.collection })

/-- The function `getAll` of `main.go`. -/
def getAll (c : List Task) : List Task × Option Err :=
  let filter : D := [E.zero]
  filterTasks filter c

/-- The function `getPending` of `main.go`. -/
def getPending (c : List Task) : List Task × Option Err :=
  let filter : D := [⟨"completed", Value.bool false⟩]
  filterTasks filter c

/-- The function `getFinished` of `main.go`. -/
def getFinished (c : List Task) : List Task × Option Err :=
  let filter : D := [⟨"completed", Value.bool true⟩]
  filterTasks filter c

/-- The `for _, v := range tasks` loop of `completeTask`: a completed task is
logged and skipped; at the first task that is not completed the function
returns the result of `FindOneAndUpdate(ctx, filter, update)`. -/
def completeLoop (filter : D) (update : Update) : List Task → List Task → Option Err × List Task
  | [], c => (none, c)
  | v :: vs, c =>
    if v.Completed then completeLoop filter update vs c
    else
      let r := FindOneAndUpdate filter update c
      (Decode r.1, r.2)

/-- The function `completeTask` of `main.go`. -/
def completeTask (text : String) (w : World) : Option Err × World :=
  let filter : D := [⟨"text", Value.str text⟩]
  let n := Now w
  let w := n.2
  let update : Update :=
    [("$set", [⟨"completed", Value.bool true⟩, ⟨"updated_at", Value.time n.1⟩])]
  let r := filterTasks filter w.collection
  match r.2 with
  | some err =>
    if err = Err.ErrNoDocuments then
      (some (Err.New "no task found to mark as complete\nrun `all` to get all tasks"), w)
    else (some err, w)
  | none =>
    let l := completeLoop filter update r.1 w.collection
    (l.1, { w with collection := l.2 })

/-- The `for _, v := range tasks` loop of `deleteTask`: one `DeleteOne` per
task found; a deleted count of zero ends the function with an error. -/
def deleteLoop (filter : D) : List Task → List Task → Option Err × List Task
  | [], c => (none, c)
  | _ :: vs, c =>
    let res := DeleteOne filter c
    if res.1 = 0 then (some (Err.New "no tasks were deleted"), res.2)
    else deleteLoop filter vs res.2

/-- The function `deleteTask` of `main.go`. -/
def deleteTask (text : String) (w : World) : Option Err × World :=
  let filter : D := [⟨"text", Value.str text⟩]
  let r := filterTasks filter w.collection
  match r.2 with
  | some err =>
    if err = Err.ErrNoDocuments then
      (some (Err.New "no task found to delete\nrun `all` to get all tasks"), w)
    else (some err, w)
  | none =>
    let l := deleteLoop filter r.1 w.collection
    (l.1, { w with collection := l.2 })

/-- The `Action` of the `add` command. -/
def addAction (args : List String) (w : World) : Option Err × World :=
  let str := First args
  if str = "" then (some (Err.New "can not add empty task"), w)
  else
    let i := NewObjectID w
    let c := Now i.2
    let u := Now c.2
    let task : Task :=
      { ID := i.1, CreatedAt := c.1, UpdatedAt := u.1, Text := str, Completed := false }
    createNewTask task u.2

/-- The `Action` of the `done` command. -/
def doneAction (args : List String) (w : World) : Option Err × World :=
  let text := First args
  if text = "" then
    (some (Err.New "Task Name is mandatory\n Run `all` to get list of all tasks"), w)
  else completeTask text w

/-- The `Action` of the `rm` command. -/
def rmAction (args : List String) (w : World) : Option Err × World :=
  let text := First args
  if text = "" then
    (some (Err.New "Task Name is mandatory\n Run `all` to get list of all tasks"), w)
  else
    let r := deleteTask text w
    match r.1 with
    | some err => (some err, r.2)
    | none => (none, r.2)

/-- A world over a collection whose clock reads `k, k+1, ...` and whose id
source gives `100, 101, ...`; used for concrete runs. -/
def World.sample (c : List Task) (k : Time) : World :=
  { collection := c, clock := fun n => k + n, oids := fun n => 100 + n }

/-! ## Lemmas on the driver model and the lookup primitive -/

theorem drain_eq (cur tasks : List Task) : drain cur tasks = tasks ++ cur := by
  induction cur generalizing tasks with
  | nil => simp [drain]
  | cons t cur ih => simp [drain, ih]

theorem filterTasks_fst (filter : D) (c : List Task) :
    (filterTasks filter c).1 = c.filter (matchesFilter filter) := by
  unfold filterTasks
  simp only [drain_eq, Find, List.nil_append]
  split <;> rfl

theorem filterTasks_snd (filter : D) (c : List Task) :
    (filterTasks filter c).2 =
      if c.filter (matchesFilter filter) = [] then some Err.ErrNoDocuments else none := by
  unfold filterTasks
  simp only [drain_eq, Find, List.nil_append, List.length_eq_zero]
  split <;> simp [*]

theorem matchesFilter_text (text : String) (x : Task) :
    matchesFilter [⟨"text", Value.str text⟩] x = decide (x.Text = text) := by
  simp [matchesFilter, Task.field]

theorem matchesFilter_completed (b : Bool) (x : Task) :
    matchesFilter [⟨"completed", Value.bool b⟩] x = decide (x.Completed = b) := by
  simp [matchesFilter, Task.field]

theorem matchesFilter_zero (x : Task) : matchesFilter [E.zero] x = true := by
  simp [matchesFilter, Task.field, E.zero]

theorem applyUpdate_complete (now : Time) (x : Task) :
    applyUpdate [("$set", [⟨"completed", Value.bool true⟩, ⟨"updated_at", Value.time now⟩])] x
      = { x with Completed := true, UpdatedAt := now } := by
  simp [applyUpdate, Task.setField]

theorem getAll_fst (c : List Task) : (getAll c).1 = c := by
  simp only [getAll, filterTasks_fst]
  exact List.filter_eq_self.mpr (fun x _ => matchesFilter_zero x)

theorem getPending_fst (c : List Task) :
    (getPending c).1 = c.filter (fun x => !x.Completed) := by
  simp only [getPending, filterTasks_fst]
  congr 1
  funext x
  rw [matchesFilter_completed]
  cases x.Completed <;> rfl

theorem getFinished_fst (c : List Task) :
    (getFinished c).1 = c.filter (fun x => x.Completed) := by
  simp only [getFinished, filterTasks_fst]
  congr 1
  funext x
  rw [matchesFilter_completed]
  cases x.Completed <;> rfl

theorem completeLoop_all_completed (filter : D) (update : Update) (tasks c : List Task)
    (h : ∀ v ∈ tasks, v.Completed = true) :
    completeLoop filter update tasks c = (none, c) := by
  induction tasks with
  | nil => rfl
  | cons v vs ih =>
    have hv : v.Completed = true := h v (List.mem_cons_self v vs)
    simp only [completeLoop, hv, if_true]
    exact ih (fun u hu => h u (List.mem_cons_of_mem v hu))

theorem completeLoop_some_pending (filter : D) (update : Update) (tasks c : List Task)
    (h : ∃ v ∈ tasks, v.Completed = false) :
    completeLoop filter update tasks c
      = (Decode (FindOneAndUpdate filter update c).1, (FindOneAndUpdate filter update c).2) := by
  induction tasks with
  | nil =>
    obtain ⟨v, hv, _⟩ := h
    cases hv
  | cons v vs ih =>
    cases hc : v.Completed with
    | false => simp [completeLoop, hc]
    | true =>
      simp only [completeLoop, hc, if_true]
      apply ih
      obtain ⟨u, hu, hu2⟩ := h
      rcases List.mem_cons.mp hu with rfl | hmem
      · rw [hc] at hu2
        cases hu2
      · exact ⟨u, hmem, hu2⟩

theorem FindOneAndUpdate_found (filter : D) (update : Update) (c : List Task)
    (h : ∃ x ∈ c, matchesFilter filter x = true) :
    ∃ x, matchesFilter filter x = true ∧
      (FindOneAndUpdate filter update c).1 = some x ∧
      applyUpdate update x ∈ (FindOneAndUpdate filter update c).2 := by
  induction c with
  | nil =>
    obtain ⟨x, hx, _⟩ := h
    cases hx
  | cons y ys ih =>
    by_cases hy : matchesFilter filter y = true
    · exact ⟨y, hy, by simp [FindOneAndUpdate, hy], by simp [FindOneAndUpdate, hy]⟩
    · have hrest : ∃ x ∈ ys, matchesFilter filter x = true := by
        obtain ⟨x, hx, hm⟩ := h
        rcases List.mem_cons.mp hx with rfl | hmem
        · exact absurd hm hy
        · exact ⟨x, hmem, hm⟩
      obtain ⟨x, hm, h1, h2⟩ := ih hrest
      refine ⟨x, hm, ?_, ?_⟩
      · simp [FindOneAndUpdate, hy, h1]
      · simp [FindOneAndUpdate, hy, h2]

theorem DeleteOne_none (filter : D) (c : List Task)
    (h : c.filter (matchesFilter filter) = []) : DeleteOne filter c = (0, c) := by
  induction c with
  | nil => rfl
  | cons y ys ih =>
    have hy : matchesFilter filter y = false := by
      have := List.filter_eq_nil_iff.mp h y (List.mem_cons_self y ys)
      simpa using this
    have hys : ys.filter (matchesFilter filter) = [] := by
      simpa [List.filter_cons, hy] using h
    simp [DeleteOne, hy, ih hys]

theorem DeleteOne_some (filter : D) (c : List Task)
    (h : c.filter (matchesFilter filter) ≠ []) :
    (DeleteOne filter c).1 = 1 ∧
    ((DeleteOne filter c).2.filter (matchesFilter filter)).length + 1
      = (c.filter (matchesFilter filter)).length ∧
    (DeleteOne filter c).2.filter (fun x => !matchesFilter filter x)
      = c.filter (fun x => !matchesFilter filter x) := by
  induction c with
  | nil => exact absurd rfl h
  | cons y ys ih =>
    cases hy : matchesFilter filter y with
    | true => simp [DeleteOne, hy, List.filter_cons]
    | false =>
      have hys : ys.filter (matchesFilter filter) ≠ [] := by
        simpa [List.filter_cons, hy] using h
      obtain ⟨h1, h2, h3⟩ := ih hys
      simp [DeleteOne, hy, List.filter_cons, h1, h2, h3]

theorem deleteLoop_all (filter : D) (tasks c : List Task)
    (h : tasks.length = (c.filter (matchesFilter filter)).length) :
    deleteLoop filter tasks c = (none, c.filter (fun x => !matchesFilter filter x)) := by
  induction tasks generalizing c with
  | nil =>
    have hnil : c.filter (matchesFilter filter) = [] :=
      List.length_eq_zero.mp (by simpa using h.symm)
    simp only [deleteLoop]
    congr 1
    symm
    apply List.filter_eq_self.mpr
    intro x hx
    have := List.filter_eq_nil_iff.mp hnil x hx
    simpa using this
  | cons v vs ih =>
    have hne : c.filter (matchesFilter filter) ≠ [] := by
      intro h0
      rw [h0] at h
      simp at h
    obtain ⟨h1, h2, h3⟩ := DeleteOne_some filter c hne
    simp only [deleteLoop, h1]
    rw [if_neg (by decide), ih (DeleteOne filter c).2 (by simp at h; omega), h3]

theorem filter_text_eq_nil (text : String) (c : List Task) (h : ∀ x ∈ c, x.Text ≠ text) :
    c.filter (matchesFilter [⟨"text", Value.str text⟩]) = [] := by
  apply List.filter_eq_nil_iff.mpr
  intro x hx
  rw [matchesFilter_text]
  simpa using h x hx

theorem filter_text_ne_nil (text : String) (c : List Task) (h : ∃ x ∈ c, x.Text = text) :
    c.filter (matchesFilter [⟨"text", Value.str text⟩]) ≠ [] := by
  obtain ⟨x, hx, ht⟩ := h
  intro h0
  have := List.filter_eq_nil_iff.mp h0 x hx
  rw [matchesFilter_text] at this
  simp [ht] at this

theorem completeTask_noMatch (text : String) (w : World)
    (h : ∀ x ∈ w.collection, x.Text ≠ text) :
    completeTask text w =
      (some (Err.New "no task found to mark as complete\nrun `all` to get all tasks"),
        (Now w).2) := by
  have hnil : (Now w).2.collection.filter (matchesFilter [⟨"text", Value.str text⟩]) = [] :=
    filter_text_eq_nil text w.collection h
  simp only [completeTask, filterTasks_snd, hnil, if_true]

theorem completeTask_match (text : String) (w : World)
    (h : ∃ x ∈ w.collection, x.Text = text) :
    completeTask text w =
      ((completeLoop [⟨"text", Value.str text⟩]
          [("$set", [⟨"completed", Value.bool true⟩, ⟨"updated_at", Value.time (w.clock 0)⟩])]
          (w.collection.filter (matchesFilter [⟨"text", Value.str text⟩])) w.collection).1,
        { (Now w).2 with collection :=
          (completeLoop [⟨"text", Value.str text⟩]
            [("$set", [⟨"completed", Value.bool true⟩, ⟨"updated_at", Value.time (w.clock 0)⟩])]
            (w.collection.filter (matchesFilter [⟨"text", Value.str text⟩])) w.collection).2 }) := by
  have hne : (Now w).2.collection.filter (matchesFilter [⟨"text", Value.str text⟩]) ≠ [] :=
    filter_text_ne_nil text w.collection h
  simp only [completeTask, filterTasks_snd, filterTasks_fst, hne, if_false]
  rfl

theorem deleteTask_noMatch (text : String) (w : World)
    (h : ∀ x ∈ w.collection, x.Text ≠ text) :
    deleteTask text w =
      (some (Err.New "no task found to delete\nrun `all` to get all tasks"), w) := by
  have hnil := filter_text_eq_nil text w.collection h
  simp only [deleteTask, filterTasks_snd, hnil, if_true]

theorem deleteTask_match (text : String) (w : World)
    (h : ∃ x ∈ w.collection, x.Text = text) :
    deleteTask text w =
      (none, { w with collection := w.collection.filter (fun x => decide (x.Text ≠ text)) }) := by
  have hne := filter_text_ne_nil text w.collection h
  simp only [deleteTask, filterTasks_snd, filterTasks_fst, hne, if_false]
  rw [deleteLoop_all _ _ _ rfl]
  simp only [matchesFilter_text]
  congr 2
  apply List.filter_congr
  intro x _
  simp

theorem addAction_nonempty (args : List String) (w : World) (h : First args ≠ "") :
    addAction args w =
      (none, { collection := w.collection ++
                  [{ ID := w.oids 0, CreatedAt := w.clock 0, UpdatedAt := w.clock 1,
                     Text := First args, Completed := false }],
               clock := fun n => w.clock (n + 1 + 1),
               oids := fun n => w.oids (n + 1) }) := by
  simp only [addAction, h, if_false, createNewTask, InsertOne, Now, NewObjectID]

theorem completeTask_pending_finished (text : String) (w1 : World)
    (h : ∃ x ∈ w1.collection, x.Text = text ∧ x.Completed = false) :
    (completeTask text w1).1 = none ∧
    (getFinished (completeTask text w1).2.collection).2 = none ∧
    ∃ x ∈ (getFinished (completeTask text w1).2.collection).1, x.Text = text := by
  obtain ⟨p, hmem, hpt, hpc⟩ := h
  have hsome : ∃ x ∈ w1.collection, x.Text = text := ⟨p, hmem, hpt⟩
  rw [completeTask_match text w1 hsome]
  have hpend : ∃ v ∈ w1.collection.filter (matchesFilter [⟨"text", Value.str text⟩]),
      v.Completed = false :=
    ⟨p, List.mem_filter.mpr ⟨hmem, by rw [matchesFilter_text]; simp [hpt]⟩, hpc⟩
  rw [completeLoop_some_pending _ _ _ _ hpend]
  obtain ⟨x, hm, h1, h2⟩ := FindOneAndUpdate_found [⟨"text", Value.str text⟩]
    [("$set", [⟨"completed", Value.bool true⟩, ⟨"updated_at", Value.time (w1.clock 0)⟩])]
    w1.collection ⟨p, hmem, by rw [matchesFilter_text]; simp [hpt]⟩
  rw [applyUpdate_complete] at h2
  rw [matchesFilter_text] at hm
  have hxt : x.Text = text := by simpa using hm
  have hfin : ({ x with Completed := true, UpdatedAt := w1.clock 0 } : Task) ∈
      (FindOneAndUpdate [⟨"text", Value.str text⟩]
        [("$set", [⟨"completed", Value.bool true⟩, ⟨"updated_at", Value.time (w1.clock 0)⟩])]
        w1.collection).2.filter (matchesFilter [⟨"completed", Value.bool true⟩]) :=
    List.mem_filter.mpr ⟨h2, by rw [matchesFilter_completed]; simp⟩
  refine ⟨?_, ?_, ?_⟩
  · simp only [h1, Decode]
  · simp only [getFinished, filterTasks_snd]
    rw [if_neg (List.ne_nil_of_mem hfin)]
  · simp only [getFinished, filterTasks_fst]
    exact ⟨_, hfin, hxt⟩

theorem FindOneAndUpdate_first (filter : D) (update : Update) (pre post : List Task)
    (x : Task) (hpre : ∀ y ∈ pre, matchesFilter filter y = false)
    (hx : matchesFilter filter x = true) :
    FindOneAndUpdate filter update (pre ++ x :: post)
      = (some x, pre ++ applyUpdate update x :: post) := by
  induction pre with
  | nil => simp [FindOneAndUpdate, hx]
  | cons y ys ih =>
    have hy := hpre y (List.mem_cons_self y ys)
    have hys := ih (fun z hz => hpre z (List.mem_cons_of_mem y hz))
    simp [FindOneAndUpdate, hy, hys]

/-- When the first stored task with the text is pending, `completeTask`
completes that task and refreshes its `updated_at`, and nothing else changes. -/
theorem completeTask_first_match_pending (text : String) (w : World) (pre post : List Task)
    (x : Task) (hc : w.collection = pre ++ x :: post)
    (hpre : ∀ y ∈ pre, y.Text ≠ text) (hx : x.Text = text) (hp : x.Completed = false) :
    (completeTask text w).1 = none ∧
    (completeTask text w).2.collection
      = pre ++ { x with Completed := true, UpdatedAt := w.clock 0 } :: post := by
  have hmem : x ∈ w.collection := by simp [hc]
  rw [completeTask_match text w ⟨x, hmem, hx⟩]
  have hpend : ∃ v ∈ w.collection.filter (matchesFilter [⟨"text", Value.str text⟩]),
      v.Completed = false :=
    ⟨x, List.mem_filter.mpr ⟨hmem, by rw [matchesFilter_text]; simp [hx]⟩, hp⟩
  rw [completeLoop_some_pending _ _ _ _ hpend, hc,
    FindOneAndUpdate_first _ _ pre post x
      (fun y hy => by rw [matchesFilter_text]; simpa using hpre y hy)
      (by rw [matchesFilter_text]; simp [hx]),
    applyUpdate_complete]
  exact ⟨rfl, rfl⟩

/-! ## The lookup primitive and the listings -/

/-- Claim C6: for every collection and every filter document, `filterTasks`
fails with `mongo.ErrNoDocuments` exactly when no stored task matches the
filter; when some stored task matches, it returns no error and a non-empty
slice that holds exactly the matching stored tasks, in the store's order. -/
theorem filterTasks_noDocuments_iff (filter : D) (c : List Task) :
    ((filterTasks filter c).2 = some Err.ErrNoDocuments ↔
        ∀ x ∈ c, matchesFilter filter x = false) ∧
    ((∃ x ∈ c, matchesFilter filter x = true) →
        (filterTasks filter c).2 = none ∧
        (filterTasks filter c).1 ≠ [] ∧
        (filterTasks filter c).1 = c.filter (fun x => matchesFilter filter x)) := by
  refine ⟨?_, ?_⟩
  · rw [filterTasks_snd]
    by_cases h : c.filter (matchesFilter filter) = []
    · simp only [h, if_true, true_iff]
      intro x hx
      have := List.filter_eq_nil_iff.mp h x hx
      simpa using this
    · simp only [h, if_false]
      constructor
      · intro h0
        cases h0
      · intro hall
        exact absurd (List.filter_eq_nil_iff.mpr (fun x hx => by simp [hall x hx])) h
  · rintro ⟨x, hx, hm⟩
    have hne : c.filter (matchesFilter filter) ≠ [] := by
      intro h
      have := List.filter_eq_nil_iff.mp h x hx
      exact this hm
    refine ⟨?_, ?_, ?_⟩
    · rw [filterTasks_snd]
      simp [hne]
    · rw [filterTasks_fst]
      exact hne
    · rw [filterTasks_fst]

/-- Instance of claim C6 on a collection of three tasks and the filter
`text = "b"`. -/
theorem filterTasks_noDocuments_iff_witness :
    ((filterTasks [⟨"text", Value.str "b"⟩]
          [⟨1, 0, 0, "a", false⟩, ⟨2, 0, 0, "b", true⟩, ⟨3, 0, 0, "b", false⟩]).2
        = some Err.ErrNoDocuments ↔
      ∀ x ∈ [(⟨1, 0, 0, "a", false⟩ : Task), ⟨2, 0, 0, "b", true⟩, ⟨3, 0, 0, "b", false⟩],
        matchesFilter [⟨"text", Value.str "b"⟩] x = false) ∧
    (filterTasks [⟨"text", Value.str "b"⟩]
          [⟨1, 0, 0, "a", false⟩, ⟨2, 0, 0, "b", true⟩, ⟨3, 0, 0, "b", false⟩]).2 = none ∧
    (filterTasks [⟨"text", Value.str "b"⟩]
          [⟨1, 0, 0, "a", false⟩, ⟨2, 0, 0, "b", true⟩, ⟨3, 0, 0, "b", false⟩]).1
        = [⟨2, 0, 0, "b", true⟩, ⟨3, 0, 0, "b", false⟩] :=
  have h := filterTasks_noDocuments_iff [⟨"text", Value.str "b"⟩]
    [⟨1, 0, 0, "a", false⟩, ⟨2, 0, 0, "b", true⟩, ⟨3, 0, 0, "b", false⟩]
  have h2 := h.2 ⟨⟨2, 0, 0, "b", true⟩, by decide, by decide⟩
  ⟨h.1, h2.1, h2.2.2.trans (by decide)⟩

/-- Claim C2: reading the slice returned with the no-match error as the empty
listing, `getPending` (resp. `getFinished`) returns exactly the subsequence of
`getAll` with `completed = false` (resp. `true`); every task of `getAll` is in
exactly one of the two listings, every task of either listing is in `getAll`,
and the sizes of the two listings add up to the size of `getAll`. -/
theorem listing_partition (c : List Task) :
    (getPending c).1 = (getAll c).1.filter (fun x => !x.Completed) ∧
    (getFinished c).1 = (getAll c).1.filter (fun x => x.Completed) ∧
    (∀ x ∈ (getAll c).1,
        (x ∈ (getPending c).1 ∧ x ∉ (getFinished c).1) ∨
        (x ∉ (getPending c).1 ∧ x ∈ (getFinished c).1)) ∧
    (∀ x, x ∈ (getPending c).1 ∨ x ∈ (getFinished c).1 → x ∈ (getAll c).1) ∧
    (getPending c).1.length + (getFinished c).1.length = (getAll c).1.length := by
  simp only [getAll_fst, getPending_fst, getFinished_fst, List.mem_filter]
  refine ⟨trivial, trivial, ?_, ?_, ?_⟩
  · intro x hx
    cases hc : x.Completed <;> simp [hx, hc]
  · rintro x (h | h) <;> exact h.1
  · induction c with
    | nil => rfl
    | cons x xs ih =>
      cases hc : x.Completed <;> simp [List.filter_cons, hc] <;> omega

/-- Instance of claim C2 on a collection with one pending and one finished
task. -/
theorem listing_partition_witness :
    (getPending [⟨1, 0, 0, "a", false⟩, ⟨2, 0, 0, "b", true⟩]).1 = [⟨1, 0, 0, "a", false⟩] ∧
    (getFinished [⟨1, 0, 0, "a", false⟩, ⟨2, 0, 0, "b", true⟩]).1 = [⟨2, 0, 0, "b", true⟩] ∧
    (getAll [⟨1, 0, 0, "a", false⟩, ⟨2, 0, 0, "b", true⟩]).1
      = [⟨1, 0, 0, "a", false⟩, ⟨2, 0, 0, "b", true⟩] :=
  have h := listing_partition [⟨1, 0, 0, "a", false⟩, ⟨2, 0, 0, "b", true⟩]
  ⟨h.1.trans (by decide), h.2.1.trans (by decide), by decide⟩

/-! ## Completing a task -/

/-- Claim C1, evaluated on the collection that holds a completed task "t"
followed by a pending task "t": `completeTask "t"` returns no error, the
pending task is still pending, and the task that was already completed has a
new `updated_at`.  The update is sent with the filter on the text alone, so it
reaches the first task with that text, not the first pending one. -/
theorem completeTask_updates_first_text_match :
    (completeTask "t"
        (World.sample [⟨1, 0, 0, "t", true⟩, ⟨2, 0, 0, "t", false⟩] 5)).1 = none ∧
    (completeTask "t"
        (World.sample [⟨1, 0, 0, "t", true⟩, ⟨2, 0, 0, "t", false⟩] 5)).2.collection
      = [⟨1, 0, 5, "t", true⟩, ⟨2, 0, 0, "t", false⟩] := by
  decide

/-- Claim C8: when some stored task has the text and every stored task with
the text is already completed, `completeTask` returns no error and leaves the
collection as it was, so no task's `updated_at` changes. -/
theorem completeTask_all_completed (text : String) (w : World)
    (hsome : ∃ x ∈ w.collection, x.Text = text)
    (hall : ∀ x ∈ w.collection, x.Text = text → x.Completed = true) :
    (completeTask text w).1 = none ∧
    (completeTask text w).2.collection = w.collection := by
  rw [completeTask_match text w hsome]
  have hloop := completeLoop_all_completed [⟨"text", Value.str text⟩]
    [("$set", [⟨"completed", Value.bool true⟩, ⟨"updated_at", Value.time (w.clock 0)⟩])]
    (w.collection.filter (matchesFilter [⟨"text", Value.str text⟩])) w.collection
    (by
      intro v hv
      obtain ⟨hmem, hm⟩ := List.mem_filter.mp hv
      rw [matchesFilter_text] at hm
      exact hall v hmem (by simpa using hm))
  simp only [hloop]
  exact ⟨trivial, trivial⟩

/-- Instance of claim C8: two completed tasks "t" and a pending task "u". -/
theorem completeTask_all_completed_witness :
    (∃ x ∈ (World.sample
        [⟨1, 0, 1, "t", true⟩, ⟨2, 0, 0, "u", false⟩, ⟨3, 2, 3, "t", true⟩] 9).collection,
      x.Text = "t") ∧
    (completeTask "t" (World.sample
        [⟨1, 0, 1, "t", true⟩, ⟨2, 0, 0, "u", false⟩, ⟨3, 2, 3, "t", true⟩] 9)).1 = none ∧
    (completeTask "t" (World.sample
        [⟨1, 0, 1, "t", true⟩, ⟨2, 0, 0, "u", false⟩, ⟨3, 2, 3, "t", true⟩] 9)).2.collection
      = [⟨1, 0, 1, "t", true⟩, ⟨2, 0, 0, "u", false⟩, ⟨3, 2, 3, "t", true⟩] :=
  ⟨⟨⟨1, 0, 1, "t", true⟩, by decide, by decide⟩,
    completeTask_all_completed "t"
      (World.sample [⟨1, 0, 1, "t", true⟩, ⟨2, 0, 0, "u", false⟩, ⟨3, 2, 3, "t", true⟩] 9)
      ⟨⟨1, 0, 1, "t", true⟩, by decide, by decide⟩ (by decide)⟩

/-- Claim C7: when no stored task has the text (the empty collection
included), `completeTask` fails with the error whose message starts
"no task found to mark as complete" and `deleteTask` fails with the error
whose message starts "no task found to delete"; both leave the collection as
it was. -/
theorem noMatch_complete_delete (text : String) (w : World)
    (h : ∀ x ∈ w.collection, x.Text ≠ text) :
    (completeTask text w).1
      = some (Err.New "no task found to mark as complete\nrun `all` to get all tasks") ∧
    (completeTask text w).2.collection = w.collection ∧
    (deleteTask text w).1
      = some (Err.New "no task found to delete\nrun `all` to get all tasks") ∧
    (deleteTask text w).2.collection = w.collection := by
  rw [completeTask_noMatch text w h, deleteTask_noMatch text w h]
  exact ⟨rfl, rfl, rfl, rfl⟩

/-- Instance of claim C7: the text "missing" on a collection of one task. -/
theorem noMatch_complete_delete_witness :
    (∀ x ∈ (World.sample [⟨1, 0, 0, "a", false⟩] 3).collection, x.Text ≠ "missing") ∧
    (completeTask "missing" (World.sample [⟨1, 0, 0, "a", false⟩] 3)).1
      = some (Err.New "no task found to mark as complete\nrun `all` to get all tasks") ∧
    (completeTask "missing" (World.sample [⟨1, 0, 0, "a", false⟩] 3)).2.collection
      = [⟨1, 0, 0, "a", false⟩] ∧
    (deleteTask "missing" (World.sample [⟨1, 0, 0, "a", false⟩] 3)).1
      = some (Err.New "no task found to delete\nrun `all` to get all tasks") ∧
    (deleteTask "missing" (World.sample [⟨1, 0, 0, "a", false⟩] 3)).2.collection
      = [⟨1, 0, 0, "a", false⟩] :=
  ⟨by decide,
    noMatch_complete_delete "missing" (World.sample [⟨1, 0, 0, "a", false⟩] 3) (by decide)⟩

/-- Claim C5: for a non-empty text, after the `add` command and then
`completeTask` with the same text, `completeTask` returns no error and
`getFinished` returns no error and a listing that holds a task with the
text. -/
theorem add_done_finished (args : List String) (w : World) (h : First args ≠ "") :
    (addAction args w).1 = none ∧
    (completeTask (First args) (addAction args w).2).1 = none ∧
    (getFinished (completeTask (First args) (addAction args w).2).2.collection).2 = none ∧
    ∃ x ∈ (getFinished (completeTask (First args) (addAction args w).2).2.collection).1,
      x.Text = First args := by
  rw [addAction_nonempty args w h]
  exact ⟨rfl, completeTask_pending_finished (First args) _
    ⟨⟨w.oids 0, w.clock 0, w.clock 1, First args, false⟩, by simp, rfl, rfl⟩⟩

/-- Instance of claim C5: `add "t"` then `done "t"` on a collection that holds
another pending task. -/
theorem add_done_finished_witness :
    First ["t"] ≠ "" ∧
    (completeTask "t" (addAction ["t"] (World.sample [⟨1, 0, 0, "a", false⟩] 3)).2).1 = none ∧
    (getFinished (completeTask "t"
        (addAction ["t"] (World.sample [⟨1, 0, 0, "a", false⟩] 3)).2).2.collection)
      = ([⟨100, 3, 5, "t", true⟩], none) :=
  have h := add_done_finished ["t"] (World.sample [⟨1, 0, 0, "a", false⟩] 3) (by decide)
  ⟨by decide, h.2.1, by decide⟩

/-! ## Deleting a task -/

/-- Claim C3: when some stored task has the text, `deleteTask` returns no
error; afterwards `getAll` holds no task with the text and holds every task
with another text, unchanged and in the same order; a second `deleteTask`
with the text fails with the error whose message starts
"no task found to delete". -/
theorem deleteTask_removes_text (text : String) (w : World)
    (h : ∃ x ∈ w.collection, x.Text = text) :
    (deleteTask text w).1 = none ∧
    (∀ x ∈ (getAll (deleteTask text w).2.collection).1, x.Text ≠ text) ∧
    (getAll (deleteTask text w).2.collection).1
      = w.collection.filter (fun x => decide (x.Text ≠ text)) ∧
    (deleteTask text (deleteTask text w).2).1
      = some (Err.New "no task found to delete\nrun `all` to get all tasks") := by
  have hgone : ∀ x ∈ w.collection.filter (fun x => decide (x.Text ≠ text)), x.Text ≠ text := by
    intro x hx
    simpa using (List.mem_filter.mp hx).2
  rw [deleteTask_match text w h]
  refine ⟨rfl, ?_, ?_, ?_⟩
  · rw [getAll_fst]
    exact hgone
  · rw [getAll_fst]
  · rw [deleteTask_noMatch text _ hgone]

/-- Instance of claim C3: `rm "t"` right after `add "t"`, on a collection that
already holds a completed task "t" and a task "a". -/
theorem deleteTask_removes_text_witness :
    (∃ x ∈ (addAction ["t"]
        (World.sample [⟨1, 0, 0, "t", true⟩, ⟨2, 0, 0, "a", false⟩] 3)).2.collection,
      x.Text = "t") ∧
    (deleteTask "t" (addAction ["t"]
        (World.sample [⟨1, 0, 0, "t", true⟩, ⟨2, 0, 0, "a", false⟩] 3)).2).1 = none ∧
    (getAll (deleteTask "t" (addAction ["t"]
        (World.sample [⟨1, 0, 0, "t", true⟩, ⟨2, 0, 0, "a", false⟩] 3)).2).2.collection).1
      = [⟨2, 0, 0, "a", false⟩] :=
  have h := deleteTask_removes_text "t"
    (addAction ["t"] (World.sample [⟨1, 0, 0, "t", true⟩, ⟨2, 0, 0, "a", false⟩] 3)).2
    ⟨⟨1, 0, 0, "t", true⟩, by decide, by decide⟩
  ⟨⟨⟨1, 0, 0, "t", true⟩, by decide, by decide⟩, h.1, h.2.2.1.trans (by decide)⟩

/-! ## Adding a task -/

/-- Claim C9: when the first argument of the `add` command is empty or
absent, the command fails with the error "can not add empty task" and the
world, the collection included, is as it was. -/
theorem addAction_empty (args : List String) (w : World) (h : First args = "") :
    addAction args w = (some (Err.New "can not add empty task"), w) ∧
    (addAction args w).2.collection = w.collection := by
  simp only [addAction, h, if_true, and_self]

/-- Instance of claim C9: `add ""` on a collection of one task. -/
theorem addAction_empty_witness :
    First [""] = "" ∧
    (addAction [""] (World.sample [⟨1, 0, 0, "a", false⟩] 3)).1
      = some (Err.New "can not add empty task") ∧
    (addAction [""] (World.sample [⟨1, 0, 0, "a", false⟩] 3)).2.collection
      = [⟨1, 0, 0, "a", false⟩] :=
  have h := addAction_empty [""] (World.sample [⟨1, 0, 0, "a", false⟩] 3) (by decide)
  ⟨by decide, congrArg Prod.fst h.1, h.2⟩

/-- Claim C4 fails on a collection that already holds a task with the text:
after `add "t"` the listing of `getAll` holds two tasks "t", one of them
completed. -/
theorem add_existing_text_listed_twice :
    (getAll (addAction ["t"]
        (World.sample [⟨1, 0, 0, "t", true⟩] 3)).2.collection).1.filter
          (fun x => decide (x.Text = "t"))
      = [⟨1, 0, 0, "t", true⟩, ⟨100, 3, 4, "t", false⟩] ∧
    ¬ ∃ x, (getAll (addAction ["t"]
        (World.sample [⟨1, 0, 0, "t", true⟩] 3)).2.collection).1.filter
          (fun x => decide (x.Text = "t")) = [x] ∧ x.Completed = false := by
  have hl : (getAll (addAction ["t"]
        (World.sample [⟨1, 0, 0, "t", true⟩] 3)).2.collection).1.filter
          (fun x => decide (x.Text = "t"))
      = [⟨1, 0, 0, "t", true⟩, ⟨100, 3, 4, "t", false⟩] := by decide
  refine ⟨hl, ?_⟩
  rintro ⟨x, hx, _⟩
  rw [hl] at hx
  cases hx

/-- Claim C4, amended: for a non-empty text, the `add` command returns no
error and `getAll` then returns no error and a listing whose tasks with the
text are the tasks already stored with the text followed by one new task with
`completed = false`; when no stored task had the text, that new task is the
only task with the text in the listing. -/
theorem add_then_getAll (args : List String) (w : World) (h : First args ≠ "") :
    (addAction args w).1 = none ∧
    (getAll (addAction args w).2.collection).2 = none ∧
    ∃ x, x.Text = First args ∧ x.Completed = false ∧
      (getAll (addAction args w).2.collection).1.filter (fun y => decide (y.Text = First args))
        = w.collection.filter (fun y => decide (y.Text = First args)) ++ [x] ∧
      ((∀ y ∈ w.collection, y.Text ≠ First args) →
        (getAll (addAction args w).2.collection).1.filter
          (fun y => decide (y.Text = First args)) = [x]) := by
  rw [addAction_nonempty args w h]
  refine ⟨rfl, ?_, ⟨w.oids 0, w.clock 0, w.clock 1, First args, false⟩, rfl, rfl, ?_, ?_⟩
  · simp only [getAll, filterTasks_snd]
    rw [if_neg]
    intro h0
    have := List.filter_eq_nil_iff.mp h0
      ⟨w.oids 0, w.clock 0, w.clock 1, First args, false⟩ (by simp)
    exact this (matchesFilter_zero _)
  · rw [getAll_fst]
    simp [List.filter_append, List.filter_cons]
  · intro hnew
    rw [getAll_fst]
    have hnil : w.collection.filter (fun y => decide (y.Text = First args)) = [] :=
      List.filter_eq_nil_iff.mpr (fun y hy => by simpa using hnew y hy)
    simp [List.filter_append, List.filter_cons, hnil]

/-- Instance of the amended claim C4: `add "t"` on a collection that holds a
task "a" only. -/
theorem add_then_getAll_witness :
    First ["t"] ≠ "" ∧
    (addAction ["t"] (World.sample [⟨1, 0, 0, "a", false⟩] 3)).1 = none ∧
    (getAll (addAction ["t"] (World.sample [⟨1, 0, 0, "a", false⟩] 3)).2.collection)
      = ([⟨1, 0, 0, "a", false⟩, ⟨100, 3, 4, "t", false⟩], none) :=
  have h := add_then_getAll ["t"] (World.sample [⟨1, 0, 0, "a", false⟩] 3) (by decide)
  ⟨by decide, h.1, by decide⟩

/-- Claim C10 fails on a clock that advances between the two `time.Now()`
calls of the `add` command: the task inserted has `created_at = 3` and
`updated_at = 4`. -/
theorem add_timestamps_differ :
    ∃ task, (addAction ["t"] (World.sample [] 3)).2.collection = [task] ∧
      task.CreatedAt = 3 ∧ task.UpdatedAt = 4 ∧ task.CreatedAt ≠ task.UpdatedAt :=
  ⟨⟨100, 3, 4, "t", false⟩, by decide, rfl, rfl, by decide⟩

/-- Claim C10, amended: for a non-empty text and every clock, the task the
`add` command inserts has `created_at` equal to the first reading of the clock
and `updated_at` equal to the second reading; the two are equal exactly when
the two readings are equal, and `created_at ≤ updated_at` when the clock did
not go back between the readings. -/
theorem add_timestamps (args : List String) (w : World) (h : First args ≠ "") :
    ∃ task, (addAction args w).2.collection = w.collection ++ [task] ∧
      task.Text = First args ∧
      task.CreatedAt = w.clock 0 ∧
      task.UpdatedAt = w.clock 1 ∧
      (task.CreatedAt = task.UpdatedAt ↔ w.clock 0 = w.clock 1) ∧
      (w.clock 0 ≤ w.clock 1 → task.CreatedAt ≤ task.UpdatedAt) := by
  rw [addAction_nonempty args w h]
  exact ⟨⟨w.oids 0, w.clock 0, w.clock 1, First args, false⟩, rfl, rfl, rfl, rfl,
    Iff.rfl, fun hle => hle⟩

/-- Instance of the amended claim C10: `add "t"` with a clock that reads 3 and
then 4. -/
theorem add_timestamps_witness :
    First ["t"] ≠ "" ∧
    ∃ task, (addAction ["t"] (World.sample [] 3)).2.collection = [] ++ [task] ∧
      task.CreatedAt = 3 ∧ task.UpdatedAt = 4 :=
  have h := add_timestamps ["t"] (World.sample [] 3) (by decide)
  ⟨by decide, h.elim fun task ht => ⟨task, ht.1, ht.2.2.1, ht.2.2.2.1⟩⟩

end Tasker
